import Mathlib

/-!
Shallow embedding of `nb_conda_store_kernels` (files
`nb_conda_store_kernels/manager.py` and `nb_conda_store_kernels/utils.py`)
and proofs about its synchronization/lookup behaviour.

Python dicts are modelled as insertion-ordered association lists over
`String` keys.  Python exceptions are modelled with `Except`.  Machine-level
details that the claims do not touch (the traitlets machinery, logging
transport, the asyncio bridging in `utils.py`) are not modelled; the
observable effects the claims mention (filesystem events, warnings, raised
exceptions) are made explicit in the return types.
-/

/-! ### Insertion-ordered dictionaries (Python `dict`) -/

/-- A Python `dict` with `String` keys: an insertion-ordered association
list.  Key order and overwrite-in-place semantics follow CPython. -/
abbrev Dict (α : Type) : Type := List (String × α)

/-- `d[k] = v`: replace the value in place if `k` is present, else append. -/
def dinsert {α : Type} : Dict α → String → α → Dict α
  | [], k, v => [(k, v)]
  | (k1, v1) :: rest, k, v =>
    if k1 = k then (k, v) :: rest else (k1, v1) :: dinsert rest k v

/-- `d.get(k)`: first (= unique, for well-formed dicts) match. -/
def dget {α : Type} : Dict α → String → Option α
  | [], _ => none
  | (k1, v1) :: rest, k => if k1 = k then some v1 else dget rest k

/-- `d1.update(d2)`: fold every entry of `d2` into `d1`, left to right. -/
def dupdate {α : Type} (d1 d2 : Dict α) : Dict α :=
  d2.foldl (fun acc kv => dinsert acc kv.1 kv.2) d1

/-- Apply `f` to every value, keeping keys and order (a dict
comprehension such as `\x7bname: spec.resource_dir for ...\x7d`). -/
def dmapVals {α β : Type} (f : α → β) (d : Dict α) : Dict β :=
  d.map (fun kv => (kv.1, f kv.2))

/-- Keys are pairwise distinct, as they are for every real Python dict. -/
def NodupKeys {α : Type} (d : Dict α) : Prop :=
  (d.map Prod.fst).Nodup

/-! ### Data model -/

/-- One environment record as returned by the conda-store registry
(`environment["namespace"]["name"]`, `environment["name"]`,
`environment["current_build_id"]`, plus the fields the filtered listing
query inspects). -/
structure EnvRecord where
  namespace_name : String
  name : String
  current_build_id : Nat
  status : String
  artifacts : List String
  packages : List String
deriving DecidableEq, Repr

/-- The fields of a `jupyter_client.kernelspec.KernelSpec` that
`manager.py` sets (lines 83-111). -/
structure KernelSpec where
  display_name : String
  argv : List String
  language : String
  resource_dir : String
  metadata_class_name : String
  metadata_image_name : String
deriving DecidableEq, Repr

/-- The configuration surface of `CondaStoreKernelSpecManager` used by the
synchronization cycle, plus the ambient `tempfile.gettempdir()` value.
`name_format` models the configurable `str.format` template as the
substitution function it denotes. -/
structure Config where
  name_format : String → String → Nat → String
  conda_store_only : Bool
  tmpdir : String

/-- The default template `"\x7bnamespace\x7d/\x7bname\x7d:\x7bbuild\x7d"`. -/
def defaultNameFormat (ns name : String) (build : Nat) : String :=
  ns ++ "/" ++ name ++ ":" ++ Nat.repr build

/-- `os.path.join` for one extra component (Python semantics for
non-empty, non-absolute components). -/
def pathJoin (a b : String) : String :=
  if b.startsWith "/" then b
  else if a.endsWith "/" || a = "" then a ++ b
  else a ++ "/" ++ b

/-- The scheme-prefixed identity
`f"conda-store://\x7bnamespace\x7d/\x7bname\x7d:\x7bbuild\x7d"`
(manager.py line 83); the build id, an integer, is rendered in decimal by
the f-string. -/
def kernelIdentity (ns name : String) (build : Nat) : String :=
  "conda-store://" ++ ns ++ "/" ++ name ++ ":" ++ Nat.repr build

/-- The identity under which the record is stored in the cycle dict. -/
def identityOf (e : EnvRecord) : String :=
  kernelIdentity e.namespace_name e.name e.current_build_id

/-- The source directory passed to `install_kernel_spec` and embedded in
`argv` (manager.py lines 87 and 116). -/
def sourceDirOf (name : String) : String :=
  "/usr/local/share/jupyter/kernels/" ++ name ++ "/"

/-- The Environment-to-KernelSpec translation: the `KernelSpec(...)`
constructed in the loop body of `_kernel_specs` (manager.py lines 83-111). -/
def translateEnv (cfg : Config) (e : EnvRecord) : KernelSpec :=
  { display_name :=
      cfg.name_format e.namespace_name e.name e.current_build_id
    argv :=
      [ "python"
      , sourceDirOf e.name ++ "scripts/launch_kubernetes.py"
      , "--RemoteProcessProxy.kernel-id", "{kernel_id}"
      , "--RemoteProcessProxy.port-range", "{port_range}"
      , "--RemoteProcessProxy.response-address", "{response_address}"
      , "--RemoteProcessProxy.public-key", "{public_key}" ]
    language := "python"
    resource_dir :=
      pathJoin (pathJoin cfg.tmpdir "conda-store") (Nat.repr e.current_build_id)
    metadata_class_name :=
      "enterprise_gateway.services.processproxies.k8s.KubernetesProcessProxy"
    metadata_image_name := "elyra/kernel-py:2.6.0" }

/-! ### Registry client -/

/-- Failure of the remote registry query (connection, authentication or a
malformed response), surfaced unchanged to the caller. -/
inductive QueryError where
  | connection
  | auth
  | malformedResponse
deriving DecidableEq, Repr

/-- Modelled from the spec: `conda_store.api.CondaStoreAPI.list_environments`
is external to this repository; per the Registry Client Facade contract it
issues a filtered listing query, returning exactly the records of the
registry that match the status filter, carry the requested artifact type
and contain every required package. -/
def list_environments (status artifact : String) (packages : List String)
    (registry : List EnvRecord) : List EnvRecord :=
  registry.filter (fun e =>
    e.status == status && e.artifacts.contains artifact
      && packages.all (fun p => e.packages.contains p))

/-- The eligibility invariant of the spec: status COMPLETED, a CONDA_PACK
artifact, and the ipykernel package present. -/
def eligible (e : EnvRecord) : Bool :=
  e.status == "COMPLETED" && e.artifacts.contains "CONDA_PACK"
    && e.packages.contains "ipykernel"

/-! ### The synchronization cycle (`_kernel_specs`) -/

/-- Outcome of one `self.install_kernel_spec(...)` call: either the
destination directory it returns, or an `OSError` (permissions, disk
full, path error). -/
inductive InstallResult where
  | ok (destination : String)
  | osError
deriving DecidableEq, Repr

/-- Filesystem effects of a cycle that the claims observe. -/
inductive FsEvent where
  | installDir (sourceDir kernelName destination : String)
  | writeFile (path : String)
deriving DecidableEq, Repr

/-- An exception escaping `_kernel_specs`: the registry failure, or the
`AttributeError` raised by evaluating `os.join` (the `os` module has no
attribute `join`; only `os.path.join` exists), which the surrounding
`except OSError` clause does not catch. -/
inductive CycleError where
  | queryError (q : QueryError)
  | attributeError
deriving DecidableEq, Repr

/-- The loop body of `_kernel_specs` (manager.py lines 75-129) over the
environments returned by the filtered query.  Per environment: construct
the `KernelSpec`, store it in `kernel_specs` under its identity, then try
to install it.  `outcome` gives the filesystem response to installing a
given record.  On `OSError` the manager logs a warning (carrying the
error for that record as `exc_info`) and continues with the next record.
On success, the very next statement `os.join(destination, "kernel.json")`
raises `AttributeError`, aborting the whole call before any
`kernel.json` is written. -/
def runEnvs (cfg : Config) (outcome : EnvRecord → InstallResult) :
    List EnvRecord → Dict KernelSpec → List FsEvent → List EnvRecord →
    Except CycleError (Dict KernelSpec) × List FsEvent × List EnvRecord
  | [], specs, evs, ws => (Except.ok specs, evs, ws)
  | e :: rest, specs, evs, ws =>
    let spec := translateEnv cfg e
    let specs1 := dinsert specs (identityOf e) spec
    match outcome e with
    | InstallResult.osError =>
        runEnvs cfg outcome rest specs1 evs (ws ++ [e])
    | InstallResult.ok dest =>
        (Except.error CycleError.attributeError,
         evs ++ [FsEvent.installDir (sourceDirOf e.name) spec.display_name dest],
         ws)

/-- One full synchronization cycle: the body of `_kernel_specs`
(manager.py lines 62-130).  `registry` is the outcome of the remote round
trip: either the registry contents (then the facade returns the filtered
listing) or a query failure, which propagates unchanged.  Returns the
exception-or-dict result together with the filesystem events and the
records whose installation failure was logged. -/
def kernelSpecsCycle (cfg : Config)
    (registry : Except QueryError (List EnvRecord))
    (outcome : EnvRecord → InstallResult) :
    Except CycleError (Dict KernelSpec) × List FsEvent × List EnvRecord :=
  match registry with
  | Except.error q => (Except.error (CycleError.queryError q), [], [])
  | Except.ok regList =>
      runEnvs cfg outcome
        (list_environments "COMPLETED" "CONDA_PACK" ["ipykernel"] regList)
        [] [] []

/-! ### The lookup facade -/

/-- `find_kernel_specs` (manager.py lines 132-140).  `native` is the set
of natively-discovered local kernels (what `super().find_kernel_specs()`
reports, keyed by name with their resource directories coming from their
specs).  The cycle runs via the `kernel_specs` property; a cycle
exception propagates. -/
def find_kernel_specs (cfg : Config) (native : Dict KernelSpec)
    (registry : Except QueryError (List EnvRecord))
    (outcome : EnvRecord → InstallResult) :
    Except CycleError (Dict String) × List FsEvent :=
  let base : Dict String :=
    if cfg.conda_store_only then []
    else dmapVals KernelSpec.resource_dir native
  match kernelSpecsCycle cfg registry outcome with
  | (Except.error err, evs, _) => (Except.error err, evs)
  | (Except.ok remote, evs, _) =>
      (Except.ok (dupdate base (dmapVals KernelSpec.resource_dir remote)), evs)

/-- An exception escaping `get_kernel_spec`: a propagated cycle failure,
or the `NoSuchKernel` raised by the native fallback
`super().get_kernel_spec` when the name is unknown to it (jupyter_client
behaviour, evidenced by the `NoSuchKernel` import and the handler in
`get_all_specs`). -/
inductive GetError where
  | cycle (e : CycleError)
  | noSuchKernel
deriving DecidableEq, Repr

/-- `get_kernel_spec` (manager.py lines 142-146): run a fresh cycle, look
the name up there; on `None` fall back to the native manager unless
`conda_store_only` is set.  The native manager raises `NoSuchKernel` for
an unknown name; with `conda_store_only` set a missing name yields
`None` without an error. -/
def get_kernel_spec (cfg : Config) (native : Dict KernelSpec)
    (registry : Except QueryError (List EnvRecord))
    (outcome : EnvRecord → InstallResult) (kernel_name : String) :
    Except GetError (Option KernelSpec) × List FsEvent :=
  match kernelSpecsCycle cfg registry outcome with
  | (Except.error err, evs, _) => (Except.error (GetError.cycle err), evs)
  | (Except.ok remote, evs, _) =>
      match dget remote kernel_name with
      | some s => (Except.ok (some s), evs)
      | none =>
          if cfg.conda_store_only then (Except.ok none, evs)
          else
            match dget native kernel_name with
            | some s => (Except.ok (some s), evs)
            | none => (Except.error GetError.noSuchKernel, evs)

/-- An exception escaping `get_all_specs`: a propagated cycle failure, or
the `AttributeError` raised by `spec.to_dict()` when `get_kernel_spec`
returned `None` (only `NoSuchKernel` is caught by the `try`). -/
inductive AggError where
  | cycle (e : CycleError)
  | noneHasNoToDict
deriving DecidableEq, Repr

/-- The loop body of `get_all_specs` (manager.py lines 150-155) over the
`(name, resource_dir)` pairs of `find_kernel_specs()`.  Every
`self.get_kernel_spec(name)` performs its own fresh cycle against
`registryGet` (the registry contents at that later moment; remote
environments can change between calls).  `NoSuchKernel` is logged and the
name skipped; a `None` spec makes `spec.to_dict()` raise
`AttributeError`, which aborts the aggregation; a cycle failure also
propagates. -/
def aggSpecs (cfg : Config) (native : Dict KernelSpec)
    (registryGet : Except QueryError (List EnvRecord))
    (outcome : EnvRecord → InstallResult) :
    List (String × String) → Dict (String × KernelSpec) → List String →
    Except AggError (Dict (String × KernelSpec)) × List String
  | [], acc, ws => (Except.ok acc, ws)
  | (name, rdir) :: rest, acc, ws =>
    match (get_kernel_spec cfg native registryGet outcome name).1 with
    | Except.error (GetError.cycle e) => (Except.error (AggError.cycle e), ws)
    | Except.error GetError.noSuchKernel =>
        aggSpecs cfg native registryGet outcome rest acc (ws ++ [name])
    | Except.ok none => (Except.error AggError.noneHasNoToDict, ws)
    | Except.ok (some s) =>
        aggSpecs cfg native registryGet outcome rest
          (dinsert acc name (rdir, s)) ws

/-- `get_all_specs` (manager.py lines 148-156).  `registryFind` is the
registry contents seen by the initial `find_kernel_specs()` cycle,
`registryGet` the contents seen by the per-name `get_kernel_spec`
cycles.  Returns the aggregated mapping (or the escaping exception)
together with the names whose `NoSuchKernel` was logged. -/
def get_all_specs (cfg : Config) (native : Dict KernelSpec)
    (registryFind registryGet : Except QueryError (List EnvRecord))
    (outcome : EnvRecord → InstallResult) :
    Except AggError (Dict (String × KernelSpec)) × List String :=
  match (find_kernel_specs cfg native registryFind outcome).1 with
  | Except.error e => (Except.error (AggError.cycle e), [])
  | Except.ok names => aggSpecs cfg native registryGet outcome names [] []

/-- `remove_kernel_spec` (manager.py lines 158-159): the body is `pass`.
It returns `None`, raises nothing and performs no filesystem events. -/
def remove_kernel_spec (_name : String) : Except Empty Unit × List FsEvent :=
  (Except.ok (), [])

/-! ### Concrete sample values -/

/-- A manager configured with the default template, `conda_store_only`
off, and `/tmp` as the temporary directory. -/
def cfg0 : Config :=
  { name_format := defaultNameFormat
    conda_store_only := false
    tmpdir := "/tmp" }

/-- Same configuration with `conda_store_only` on. -/
def cfgOnly : Config :=
  { name_format := defaultNameFormat
    conda_store_only := true
    tmpdir := "/tmp" }

/-- The spec scenario record: a COMPLETED environment
`teamA/analysis` at build 42, packable and carrying ipykernel. -/
def envA : EnvRecord :=
  { namespace_name := "teamA"
    name := "analysis"
    current_build_id := 42
    status := "COMPLETED"
    artifacts := ["CONDA_PACK"]
    packages := ["ipykernel"] }

/-- A second eligible record in a different namespace with a different
name but the same build id. -/
def envB : EnvRecord :=
  { namespace_name := "teamB"
    name := "ml"
    current_build_id := 42
    status := "COMPLETED"
    artifacts := ["CONDA_PACK"]
    packages := ["ipykernel"] }

/-- A natively-discovered kernel spec (as jupyter would report it). -/
def specNative : KernelSpec :=
  { display_name := "Python 3"
    argv := ["python", "-m", "ipykernel_launcher"]
    language := "python"
    resource_dir := "/usr/share/jupyter/kernels/python3"
    metadata_class_name := ""
    metadata_image_name := "" }

/-- A native kernel table with the single kernel `python3`. -/
def native0 : Dict KernelSpec := [("python3", specNative)]

/-! ### Dictionary lemmas -/

theorem dget_dinsert_self {α : Type} (d : Dict α) (k : String) (v : α) :
    dget (dinsert d k v) k = some v := by
  induction d with
  | nil => simp [dinsert, dget]
  | cons kv rest ih =>
    obtain ⟨k1, v1⟩ := kv
    by_cases h : k1 = k
    · simp [dinsert, h, dget]
    · simp [dinsert, h, dget, ih]

theorem dget_dinsert_ne {α : Type} (d : Dict α) (k : String) (v : α)
    (k2 : String) (h : k ≠ k2) : dget (dinsert d k v) k2 = dget d k2 := by
  induction d with
  | nil => simp [dinsert, dget, h]
  | cons kv rest ih =>
    obtain ⟨k1, v1⟩ := kv
    by_cases h1 : k1 = k
    · subst h1
      simp [dinsert, dget, h]
    · by_cases h2 : k1 = k2 <;>
        simp [dinsert, dget, h1, h2, Ne.symm h, ih]

theorem mem_keys_dinsert {α : Type} (d : Dict α) (k : String) (v : α)
    (a : String) :
    a ∈ (dinsert d k v).map Prod.fst ↔ a ∈ d.map Prod.fst ∨ a = k := by
  induction d with
  | nil => simp [dinsert]
  | cons kv rest ih =>
    obtain ⟨k1, v1⟩ := kv
    by_cases h : k1 = k
    · subst h
      simp [dinsert]
      tauto
    · simp [dinsert, h, ih]
      tauto

theorem nodupKeys_dinsert {α : Type} (d : Dict α) (k : String) (v : α)
    (h : NodupKeys d) : NodupKeys (dinsert d k v) := by
  induction d with
  | nil => simp [NodupKeys, dinsert]
  | cons kv rest ih =>
    obtain ⟨k1, v1⟩ := kv
    simp only [NodupKeys, List.map_cons, List.nodup_cons] at h
    obtain ⟨hk1, hrest⟩ := h
    by_cases hk : k1 = k
    · subst hk
      simp only [NodupKeys, dinsert, eq_self_iff_true, if_true,
        List.map_cons, List.nodup_cons]
      exact ⟨hk1, hrest⟩
    · have h2 := ih hrest
      simp only [NodupKeys, dinsert, if_neg hk, List.map_cons,
        List.nodup_cons]
      refine ⟨fun hmem => ?_, h2⟩
      rcases (mem_keys_dinsert rest k v k1).mp hmem with hm | hm
      · exact hk1 hm
      · exact hk hm

theorem dget_eq_none_iff {α : Type} (d : Dict α) (k : String) :
    dget d k = none ↔ k ∉ d.map Prod.fst := by
  induction d with
  | nil => simp [dget]
  | cons kv rest ih =>
    obtain ⟨k1, v1⟩ := kv
    rw [List.map_cons]
    by_cases h : k1 = k
    · subst h
      simp [dget]
    · simp only [dget, if_neg h, ih, List.mem_cons]
      constructor
      · intro hn hc
        rcases hc with hc | hc
        · exact h hc.symm
        · exact hn hc
      · intro hn hc
        exact hn (Or.inr hc)

theorem dupdate_cons {α : Type} (d1 : Dict α) (k : String) (v : α)
    (d2 : Dict α) :
    dupdate d1 ((k, v) :: d2) = dupdate (dinsert d1 k v) d2 := rfl

theorem dget_dupdate_not_mem {α : Type} (d2 : Dict α) :
    ∀ (d1 : Dict α) (k : String), k ∉ d2.map Prod.fst →
      dget (dupdate d1 d2) k = dget d1 k := by
  induction d2 with
  | nil => intro d1 k _; rfl
  | cons kv rest ih =>
    obtain ⟨k2, v2⟩ := kv
    intro d1 k hk
    rw [List.map_cons, List.mem_cons] at hk
    push_neg at hk
    rw [dupdate_cons, ih (dinsert d1 k2 v2) k hk.2,
      dget_dinsert_ne d1 k2 v2 k (Ne.symm hk.1)]

theorem dget_dupdate_some {α : Type} (d2 : Dict α) :
    ∀ (d1 : Dict α) (k : String) (v : α), NodupKeys d2 →
      dget d2 k = some v → dget (dupdate d1 d2) k = some v := by
  induction d2 with
  | nil => intro d1 k v _ h; simp [dget] at h
  | cons kv rest ih =>
    obtain ⟨k2, v2⟩ := kv
    intro d1 k v hnd hget
    simp only [NodupKeys, List.map_cons, List.nodup_cons] at hnd
    obtain ⟨hk2, hrest⟩ := hnd
    by_cases h : k2 = k
    · subst h
      simp only [dget, eq_self_iff_true, if_true, Option.some_inj] at hget
      subst hget
      rw [dupdate_cons, dget_dupdate_not_mem rest (dinsert d1 k2 v2) k2 hk2,
        dget_dinsert_self]
    · simp only [dget, if_neg h] at hget
      rw [dupdate_cons]
      exact ih (dinsert d1 k2 v2) k v hrest hget

theorem dget_dupdate_none {α : Type} (d1 d2 : Dict α) (k : String)
    (h : dget d2 k = none) : dget (dupdate d1 d2) k = dget d1 k :=
  dget_dupdate_not_mem d2 d1 k ((dget_eq_none_iff d2 k).mp h)

theorem dupdate_cons_left {α : Type} (d2 : Dict α) :
    ∀ (d1 : Dict α) (k : String) (v : α), k ∉ d2.map Prod.fst →
      dupdate ((k, v) :: d1) d2 = (k, v) :: dupdate d1 d2 := by
  induction d2 with
  | nil => intro d1 k v _; rfl
  | cons kv rest ih =>
    obtain ⟨k2, v2⟩ := kv
    intro d1 k v hk
    rw [List.map_cons, List.mem_cons] at hk
    push_neg at hk
    rw [dupdate_cons, dupdate_cons]
    have hins : dinsert ((k, v) :: d1) k2 v2 = (k, v) :: dinsert d1 k2 v2 := by
      simp only [dinsert, if_neg hk.1]
    rw [hins, ih (dinsert d1 k2 v2) k v hk.2]

theorem dupdate_nil_left {α : Type} (d : Dict α) (h : NodupKeys d) :
    dupdate ([] : Dict α) d = d := by
  induction d with
  | nil => rfl
  | cons kv rest ih =>
    obtain ⟨k, v⟩ := kv
    simp only [NodupKeys, List.map_cons, List.nodup_cons] at h
    rw [dupdate_cons]
    show dupdate ((k, v) :: []) rest = (k, v) :: rest
    rw [dupdate_cons_left rest [] k v h.1, ih h.2]

theorem dget_dmapVals {α β : Type} (f : α → β) (d : Dict α) (k : String) :
    dget (dmapVals f d) k = (dget d k).map f := by
  induction d with
  | nil => simp [dmapVals, dget]
  | cons kv rest ih =>
    obtain ⟨k1, v1⟩ := kv
    by_cases h : k1 = k
    · simp [dmapVals, dget, h]
    · simp only [dmapVals, List.map_cons, dget, if_neg h]
      simpa [dmapVals] using ih

theorem keys_dmapVals {α β : Type} (f : α → β) (d : Dict α) :
    (dmapVals f d).map Prod.fst = d.map Prod.fst := by
  simp [dmapVals]

theorem nodupKeys_dmapVals {α β : Type} (f : α → β) (d : Dict α)
    (h : NodupKeys d) : NodupKeys (dmapVals f d) := by
  unfold NodupKeys
  rwa [keys_dmapVals]

/-! ### Decimal rendering of build ids -/

theorem toDigitsCore_acc (b : Nat) :
    ∀ (fuel n : Nat) (ds : List Char),
      Nat.toDigitsCore b fuel n ds = Nat.toDigitsCore b fuel n [] ++ ds := by
  intro fuel
  induction fuel with
  | zero => intro n ds; simp [Nat.toDigitsCore]
  | succ f ih =>
    intro n ds
    simp only [Nat.toDigitsCore]
    by_cases h : n / b = 0
    · simp [h]
    · simp only [h, if_false]
      rw [ih (n / b) (Nat.digitChar (n % b) :: ds),
        ih (n / b) [Nat.digitChar (n % b)], List.append_assoc]
      rfl

theorem toDigitsCore_fuel :
    ∀ (n f1 f2 : Nat), n < f1 → n < f2 →
      Nat.toDigitsCore 10 f1 n [] = Nat.toDigitsCore 10 f2 n [] := by
  intro n
  induction n using Nat.strong_induction_on with
  | _ n ih =>
    intro f1 f2 h1 h2
    cases f1 with
    | zero => omega
    | succ f1 =>
      cases f2 with
      | zero => omega
      | succ f2 =>
        simp only [Nat.toDigitsCore]
        by_cases h : n / 10 = 0
        · simp [h]
        · simp only [h, if_false]
          have hn : n ≠ 0 := by
            intro h0
            subst h0
            simp at h
          have hdiv : n / 10 < n :=
            Nat.div_lt_self (Nat.pos_of_ne_zero hn) (by norm_num)
          rw [toDigitsCore_acc 10 f1 (n / 10), toDigitsCore_acc 10 f2 (n / 10),
            ih (n / 10) hdiv f1 f2 (by omega) (by omega)]

theorem toDigits_step (n : Nat) (h : 10 ≤ n) :
    Nat.toDigits 10 n
      = Nat.toDigits 10 (n / 10) ++ [Nat.digitChar (n % 10)] := by
  have hdiv0 : n / 10 ≠ 0 := by
    intro h0
    rw [Nat.div_eq_zero_iff (by norm_num)] at h0
    omega
  show Nat.toDigitsCore 10 (n + 1) n [] = _
  simp only [Nat.toDigitsCore, hdiv0, if_false]
  rw [toDigitsCore_acc 10 n (n / 10)]
  have hdiv : n / 10 < n := Nat.div_lt_self (by omega) (by norm_num)
  rw [toDigitsCore_fuel (n / 10) n (n / 10 + 1) (by omega) (by omega)]
  rfl

theorem toDigits_base (n : Nat) (h : n < 10) :
    Nat.toDigits 10 n = [Nat.digitChar n] := by
  show Nat.toDigitsCore 10 (n + 1) n [] = _
  simp [Nat.toDigitsCore, Nat.div_eq_of_lt h, Nat.mod_eq_of_lt h]

/-- Numeric value of one decimal digit character. -/
def digitVal (c : Char) : Nat :=
  c.toNat - 48

/-- Value of a most-significant-first digit string. -/
def digitsVal (l : List Char) : Nat :=
  l.foldl (fun a c => 10 * a + digitVal c) 0

theorem digitVal_digitChar (d : Nat) (h : d < 10) :
    digitVal (Nat.digitChar d) = d := by
  interval_cases d <;> rfl

theorem digitsVal_append_digit (l : List Char) (c : Char) :
    digitsVal (l ++ [c]) = 10 * digitsVal l + digitVal c := by
  simp [digitsVal]

theorem digitsVal_toDigits (n : Nat) :
    digitsVal (Nat.toDigits 10 n) = n := by
  induction n using Nat.strong_induction_on with
  | _ n ih =>
    by_cases h : n < 10
    · rw [toDigits_base n h]
      show 10 * 0 + digitVal (Nat.digitChar n) = n
      rw [digitVal_digitChar n h]
      omega
    · have h10 : 10 ≤ n := by omega
      rw [toDigits_step n h10, digitsVal_append_digit,
        ih (n / 10) (Nat.div_lt_self (by omega) (by norm_num)),
        digitVal_digitChar (n % 10) (Nat.mod_lt n (by norm_num))]
      omega

theorem natRepr_inj {m n : Nat} (h : Nat.repr m = Nat.repr n) : m = n := by
  have h2 : (Nat.toDigits 10 m).asString = (Nat.toDigits 10 n).asString := h
  have hd : Nat.toDigits 10 m = Nat.toDigits 10 n :=
    List.asString_inj.mp h2
  calc m = digitsVal (Nat.toDigits 10 m) := (digitsVal_toDigits m).symm
    _ = digitsVal (Nat.toDigits 10 n) := by rw [hd]
    _ = n := digitsVal_toDigits n

/-! ### Splitting strings at a separator -/

theorem append_sep_inj (sep : Char) :
    ∀ (a b a2 b2 : List Char), sep ∉ a → sep ∉ a2 →
      a ++ sep :: b = a2 ++ sep :: b2 → a = a2 ∧ b = b2 := by
  intro a
  induction a with
  | nil =>
    intro b a2 b2 _ h2 heq
    cases a2 with
    | nil => simpa using heq
    | cons c2 t2 =>
      simp at heq
      exact absurd (List.mem_cons_self c2 t2) (heq.1 ▸ h2)
  | cons c t ih =>
    intro b a2 b2 h1 h2 heq
    cases a2 with
    | nil =>
      simp at heq
      exact absurd (List.mem_cons_self c t) (heq.1 ▸ h1)
    | cons c2 t2 =>
      simp at heq
      obtain ⟨rfl, heq2⟩ := heq
      have := ih b t2 b2 (fun hm => h1 (List.mem_cons_of_mem c hm))
        (fun hm => h2 (List.mem_cons_of_mem c hm)) heq2
      exact ⟨by rw [this.1], this.2⟩

/-! ### Cycle lemmas -/

theorem runEnvs_ok_nodup (cfg : Config) (outcome : EnvRecord → InstallResult) :
    ∀ (envs : List EnvRecord) (specs : Dict KernelSpec) (evs : List FsEvent)
      (ws : List EnvRecord) (R : Dict KernelSpec) (evs2 : List FsEvent)
      (ws2 : List EnvRecord), NodupKeys specs →
      runEnvs cfg outcome envs specs evs ws = (Except.ok R, evs2, ws2) →
      NodupKeys R := by
  intro envs
  induction envs with
  | nil =>
    intro specs evs ws R evs2 ws2 hnd h
    simp only [runEnvs, Prod.mk.injEq, Except.ok.injEq] at h
    exact h.1 ▸ hnd
  | cons e rest ih =>
    intro specs evs ws R evs2 ws2 hnd h
    cases ho : outcome e with
    | osError =>
      simp only [runEnvs, ho] at h
      exact ih (dinsert specs (identityOf e) (translateEnv cfg e)) evs
        (ws ++ [e]) R evs2 ws2
        (nodupKeys_dinsert specs (identityOf e) (translateEnv cfg e) hnd) h
    | ok dest =>
      simp only [runEnvs, ho, Prod.mk.injEq] at h
      exact absurd h.1 (by simp)

theorem runEnvs_ok_provenance (cfg : Config)
    (outcome : EnvRecord → InstallResult) :
    ∀ (envs : List EnvRecord) (specs : Dict KernelSpec) (evs : List FsEvent)
      (ws : List EnvRecord) (R : Dict KernelSpec) (evs2 : List FsEvent)
      (ws2 : List EnvRecord),
      runEnvs cfg outcome envs specs evs ws = (Except.ok R, evs2, ws2) →
      ∀ (k : String) (v : KernelSpec), dget R k = some v →
        (∃ e, e ∈ envs ∧ k = identityOf e ∧ v = translateEnv cfg e)
          ∨ dget specs k = some v := by
  intro envs
  induction envs with
  | nil =>
    intro specs evs ws R evs2 ws2 h k v hget
    simp only [runEnvs, Prod.mk.injEq, Except.ok.injEq] at h
    exact Or.inr (h.1 ▸ hget)
  | cons e rest ih =>
    intro specs evs ws R evs2 ws2 h k v hget
    cases ho : outcome e with
    | osError =>
      simp only [runEnvs, ho] at h
      rcases ih (dinsert specs (identityOf e) (translateEnv cfg e)) evs
          (ws ++ [e]) R evs2 ws2 h k v hget with he | hrem
      · obtain ⟨e2, hmem, hid, hv⟩ := he
        exact Or.inl ⟨e2, List.mem_cons_of_mem e hmem, hid, hv⟩
      · by_cases hk : identityOf e = k
        · subst hk
          rw [dget_dinsert_self] at hrem
          exact Or.inl ⟨e, List.mem_cons_self e rest, rfl,
            (Option.some_inj.mp hrem).symm⟩
        · rw [dget_dinsert_ne specs (identityOf e) (translateEnv cfg e) k hk]
            at hrem
          exact Or.inr hrem
    | ok dest =>
      simp only [runEnvs, ho, Prod.mk.injEq] at h
      exact absurd h.1 (by simp)

theorem kernelSpecsCycle_ok_nodup (cfg : Config)
    (registry : Except QueryError (List EnvRecord))
    (outcome : EnvRecord → InstallResult) (R : Dict KernelSpec)
    (h : (kernelSpecsCycle cfg registry outcome).1 = Except.ok R) :
    NodupKeys R := by
  cases registry with
  | error q => simp [kernelSpecsCycle] at h
  | ok regList =>
    rcases hr : runEnvs cfg outcome
        (list_environments "COMPLETED" "CONDA_PACK" ["ipykernel"] regList)
        [] [] [] with ⟨r, evs2, ws2⟩
    simp only [kernelSpecsCycle, hr] at h
    exact runEnvs_ok_nodup cfg outcome _ [] [] [] R evs2 ws2
      (by simp [NodupKeys]) (by rw [hr, h])

/-! ### Digit strings contain no separator characters -/

theorem mem_toDigits_digitChar (n : Nat) :
    ∀ c ∈ Nat.toDigits 10 n, ∃ d, d < 10 ∧ c = Nat.digitChar d := by
  induction n using Nat.strong_induction_on with
  | _ n ih =>
    intro c hc
    by_cases h : n < 10
    · rw [toDigits_base n h] at hc
      simp only [List.mem_singleton] at hc
      exact ⟨n, h, hc⟩
    · rw [toDigits_step n (by omega)] at hc
      rcases List.mem_append.mp hc with hc | hc
      · exact ih (n / 10) (Nat.div_lt_self (by omega) (by norm_num)) c hc
      · simp only [List.mem_singleton] at hc
        exact ⟨n % 10, Nat.mod_lt n (by norm_num), hc⟩

theorem colon_not_mem_repr (n : Nat) : ':' ∉ (Nat.repr n).data := by
  intro hmem
  have hd : (Nat.repr n).data = Nat.toDigits 10 n := rfl
  rw [hd] at hmem
  obtain ⟨d, hd10, hcd⟩ := mem_toDigits_digitChar n ':' hmem
  interval_cases d <;> exact absurd hcd (by decide)

theorem append_sep_inj_last (sep : Char) (a b a2 b2 : List Char)
    (hb : sep ∉ b) (hb2 : sep ∉ b2)
    (heq : a ++ sep :: b = a2 ++ sep :: b2) : a = a2 ∧ b = b2 := by
  have hrev : b.reverse ++ sep :: a.reverse
      = b2.reverse ++ sep :: a2.reverse := by
    have h := congrArg List.reverse heq
    simp only [List.reverse_append, List.reverse_cons, List.append_assoc,
      List.singleton_append] at h
    exact h
  have h2 := append_sep_inj sep b.reverse a.reverse b2.reverse a2.reverse
    (fun hm => hb (List.mem_reverse.mp hm))
    (fun hm => hb2 (List.mem_reverse.mp hm)) hrev
  constructor
  · have h3 := congrArg List.reverse h2.2
    simpa using h3
  · have h3 := congrArg List.reverse h2.1
    simpa using h3

theorem data_slash : "/".data = ['/'] := rfl

theorem data_colon : ":".data = [':'] := rfl

/-! ### Claim theorems -/

/-- C9: for every identity, `remove_kernel_spec` returns without an
error possibility and performs no filesystem event: a trivially
succeeding no-op that leaves on-disk kernel-definition state unchanged. -/
theorem C9_remove_noop (name : String) :
    remove_kernel_spec name = (Except.ok (), ([] : List FsEvent)) := rfl

/-- C7: when the registry query fails (connection, authentication or
malformed response), `find_kernel_specs` propagates exactly that failure
to its caller, returns no partial mapping, and the cycle performs no
filesystem events. -/
theorem C7_query_failure_propagates (cfg : Config) (native : Dict KernelSpec)
    (q : QueryError) (outcome : EnvRecord → InstallResult) :
    find_kernel_specs cfg native (Except.error q) outcome
      = (Except.error (CycleError.queryError q), ([] : List FsEvent)) := rfl

/-- C10: the resource directory of a translated kernel definition
depends only on the build id: two records with equal
`current_build_id` translate to definitions with identical
`resource_dir`, whatever their namespace and name. -/
theorem C10_resource_dir_depends_only_on_build (cfg : Config)
    (e1 e2 : EnvRecord) (h : e1.current_build_id = e2.current_build_id) :
    (translateEnv cfg e1).resource_dir = (translateEnv cfg e2).resource_dir := by
  simp [translateEnv, h]

/-- Witness for C10: envA and envB differ in namespace and name but share
build id 42, hence share a resource directory. -/
theorem C10_resource_dir_depends_only_on_build_witness :
    envA.current_build_id = envB.current_build_id
      ∧ (translateEnv cfg0 envA).resource_dir
          = (translateEnv cfg0 envB).resource_dir :=
  ⟨rfl, C10_resource_dir_depends_only_on_build cfg0 envA envB rfl⟩

/-- C8: every kernel definition present in the result of a completed
synchronization cycle was translated from a registry record that is
eligible: status COMPLETED, CONDA_PACK artifact and ipykernel package.
Ineligible records never produce a definition. -/
theorem C8_only_eligible_translated (cfg : Config) (regList : List EnvRecord)
    (outcome : EnvRecord → InstallResult) (R : Dict KernelSpec)
    (h : (kernelSpecsCycle cfg (Except.ok regList) outcome).1 = Except.ok R)
    (k : String) (v : KernelSpec) (hk : dget R k = some v) :
    ∃ e, e ∈ regList ∧ eligible e = true ∧ k = identityOf e
      ∧ v = translateEnv cfg e := by
  rcases hr : runEnvs cfg outcome
      (list_environments "COMPLETED" "CONDA_PACK" ["ipykernel"] regList)
      [] [] [] with ⟨r, evs2, ws2⟩
  simp only [kernelSpecsCycle, hr] at h
  have hprov := runEnvs_ok_provenance cfg outcome _ [] [] [] R evs2 ws2
    (by rw [hr, h]) k v hk
  rcases hprov with ⟨e, hmem, hid, hv⟩ | hfalse
  · simp only [list_environments] at hmem
    rw [List.mem_filter] at hmem
    refine ⟨e, hmem.1, ?_, hid, hv⟩
    have hp := hmem.2
    simp only [List.all_cons, List.all_nil, Bool.and_true] at hp
    simpa [eligible] using hp
  · simp [dget] at hfalse

/-- Witness for C8 at the one-record registry `[envA]`. -/
theorem C8_only_eligible_translated_witness :
    ((kernelSpecsCycle cfg0 (Except.ok [envA])
        (fun _ => InstallResult.osError)).1
      = Except.ok [(identityOf envA, translateEnv cfg0 envA)])
    ∧ (∃ e, e ∈ [envA] ∧ eligible e = true ∧ identityOf envA = identityOf e
        ∧ translateEnv cfg0 envA = translateEnv cfg0 e) :=
  ⟨rfl,
    C8_only_eligible_translated cfg0 [envA] (fun _ => InstallResult.osError)
      [(identityOf envA, translateEnv cfg0 envA)] rfl (identityOf envA)
      (translateEnv cfg0 envA) (by simp [dget])⟩

/-- C3 counterexample: identity formation is not injective on arbitrary
strings.  The distinct triples ("a", "b/c", 1) and ("a/b", "c", 1)
produce the same scheme-prefixed identity. -/
theorem C3_identity_not_injective :
    kernelIdentity "a" "b/c" 1 = kernelIdentity "a/b" "c" 1
      ∧ ("a", "b/c", (1 : Nat)) ≠ ("a/b", "c", (1 : Nat)) :=
  ⟨rfl, by decide⟩

/-- C3 (amended): identity formation is injective on triples whose
namespace component contains no slash character: for two such distinct
(namespace, name, build) triples the produced identities differ. -/
theorem C3_identity_injective_slashfree_ns (ns1 name1 ns2 name2 : String)
    (b1 b2 : Nat) (hns1 : '/' ∉ ns1.data) (hns2 : '/' ∉ ns2.data)
    (hne : (ns1, name1, b1) ≠ (ns2, name2, b2)) :
    kernelIdentity ns1 name1 b1 ≠ kernelIdentity ns2 name2 b2 := by
  intro heq
  apply hne
  have hdata := congrArg String.data heq
  simp only [kernelIdentity, String.data_append, List.append_assoc,
    data_slash, data_colon, List.singleton_append] at hdata
  have h1 := List.append_cancel_left hdata
  obtain ⟨hns, hrest⟩ := append_sep_inj '/' _ _ _ _ hns1 hns2 h1
  obtain ⟨hname, hbuild⟩ := append_sep_inj_last ':' _ _ _ _
    (colon_not_mem_repr b1) (colon_not_mem_repr b2) hrest
  have e1 : ns1 = ns2 := String.ext hns
  have e2 : name1 = name2 := String.ext hname
  have e3 : b1 = b2 := natRepr_inj (String.ext hbuild)
  subst e1
  subst e2
  subst e3
  rfl

/-- Witness for the amended C3 at the distinct slash-free triples
("a", "b", 1) and ("c", "b", 1). -/
theorem C3_identity_injective_slashfree_ns_witness :
    ('/' ∉ "a".data ∧ '/' ∉ "c".data
        ∧ ("a", "b", (1 : Nat)) ≠ ("c", "b", (1 : Nat)))
    ∧ kernelIdentity "a" "b" 1 ≠ kernelIdentity "c" "b" 1 :=
  ⟨⟨by decide, by decide, by decide⟩,
    C3_identity_injective_slashfree_ns "a" "b" "c" "b" 1 1 (by decide)
      (by decide) (by decide)⟩

/-- C4: merge policy of `find_kernel_specs`, for any cycle that returns a
remote mapping R.  With `conda_store_only` on, the result is exactly the
remote resource-dir mapping, with no native entries; with it off, the
result is the native mapping updated by the remote one, a remote entry
shadowing any native entry with the same identity and a native entry
surviving at every identity the remote mapping lacks; and with a
zero-environment registry and `conda_store_only` off the result is
exactly the native mapping. -/
theorem C4_find_all_merge (cfg : Config) (native : Dict KernelSpec)
    (registry : Except QueryError (List EnvRecord))
    (outcome : EnvRecord → InstallResult) (R : Dict KernelSpec)
    (h : (kernelSpecsCycle cfg registry outcome).1 = Except.ok R) :
    (cfg.conda_store_only = true →
      (find_kernel_specs cfg native registry outcome).1
        = Except.ok (dmapVals KernelSpec.resource_dir R))
    ∧ (cfg.conda_store_only = false →
        (find_kernel_specs cfg native registry outcome).1
          = Except.ok (dupdate (dmapVals KernelSpec.resource_dir native)
              (dmapVals KernelSpec.resource_dir R))
        ∧ (∀ k s, dget R k = some s →
            dget (dupdate (dmapVals KernelSpec.resource_dir native)
                (dmapVals KernelSpec.resource_dir R)) k
              = some s.resource_dir)
        ∧ (∀ k, dget R k = none →
            dget (dupdate (dmapVals KernelSpec.resource_dir native)
                (dmapVals KernelSpec.resource_dir R)) k
              = dget (dmapVals KernelSpec.resource_dir native) k))
    ∧ (registry = Except.ok ([] : List EnvRecord) →
        cfg.conda_store_only = false →
        (find_kernel_specs cfg native registry outcome).1
          = Except.ok (dmapVals KernelSpec.resource_dir native)) := by
  have hnodupR : NodupKeys R := kernelSpecsCycle_ok_nodup cfg registry outcome R h
  have hnodupR2 : NodupKeys (dmapVals KernelSpec.resource_dir R) :=
    nodupKeys_dmapVals _ R hnodupR
  rcases hcyc : kernelSpecsCycle cfg registry outcome with ⟨r, evs, ws⟩
  rw [hcyc] at h
  have h2 : r = Except.ok R := h
  subst h2
  have hfind : find_kernel_specs cfg native registry outcome
      = (Except.ok (dupdate (if cfg.conda_store_only then []
          else dmapVals KernelSpec.resource_dir native)
          (dmapVals KernelSpec.resource_dir R)), evs) := by
    simp only [find_kernel_specs, hcyc]
  refine ⟨?_, ?_, ?_⟩
  · intro honly
    rw [hfind, honly]
    show Except.ok (dupdate [] (dmapVals KernelSpec.resource_dir R)) = _
    rw [dupdate_nil_left _ hnodupR2]
  · intro honly
    refine ⟨?_, ?_, ?_⟩
    · rw [hfind, honly]
      rfl
    · intro k s hks
      apply dget_dupdate_some _ _ _ _ hnodupR2
      rw [dget_dmapVals, hks]
      rfl
    · intro k hk
      apply dget_dupdate_none
      rw [dget_dmapVals, hk]
      rfl
  · intro hreg honly
    subst hreg
    have hcyc0 : kernelSpecsCycle cfg (Except.ok ([] : List EnvRecord)) outcome
        = (Except.ok ([] : Dict KernelSpec), [], []) := rfl
    rw [hcyc0] at hcyc
    rw [hfind, honly]
    have hRnil : R = [] := by
      have := hcyc
      simp only [Prod.mk.injEq, Except.ok.injEq] at this
      exact this.1.symm
    subst hRnil
    rfl

/-- Witness for C4: with a zero-environment registry and
`conda_store_only` off, `find_kernel_specs` returns exactly the native
mapping. -/
theorem C4_find_all_merge_witness :
    ((kernelSpecsCycle cfg0 (Except.ok ([] : List EnvRecord))
        (fun _ => InstallResult.osError)).1
      = Except.ok ([] : Dict KernelSpec))
    ∧ (find_kernel_specs cfg0 native0 (Except.ok ([] : List EnvRecord))
        (fun _ => InstallResult.osError)).1
      = Except.ok (dmapVals KernelSpec.resource_dir native0) :=
  ⟨rfl,
    (C4_find_all_merge cfg0 native0 (Except.ok ([] : List EnvRecord))
      (fun _ => InstallResult.osError) [] rfl).2.2 rfl rfl⟩

/-- C5 counterexample: `get_kernel_spec` raises for a missing identity.
With `conda_store_only` off, an empty registry and an empty native
table, looking up "x" ends in the `NoSuchKernel` error raised by the
native fallback, not in a non-error absent result. -/
theorem C5_get_one_raises_noSuchKernel :
    (get_kernel_spec cfg0 [] (Except.ok ([] : List EnvRecord))
        (fun _ => InstallResult.osError) "x").1
      = Except.error GetError.noSuchKernel := rfl

/-- C5 (amended): `get_kernel_spec` runs a full cycle and looks the
identity up in its remote result R; a remote hit is returned; on a miss
with `conda_store_only` on the result is a non-error absent `none`; on a
miss with `conda_store_only` off it falls back to the native table,
returning a native hit, and raising `NoSuchKernel` when the identity is
found nowhere. -/
theorem C5_get_one_lookup (cfg : Config) (native : Dict KernelSpec)
    (registry : Except QueryError (List EnvRecord))
    (outcome : EnvRecord → InstallResult) (kernel_name : String)
    (R : Dict KernelSpec)
    (h : (kernelSpecsCycle cfg registry outcome).1 = Except.ok R) :
    (∀ s, dget R kernel_name = some s →
      (get_kernel_spec cfg native registry outcome kernel_name).1
        = Except.ok (some s))
    ∧ (dget R kernel_name = none → cfg.conda_store_only = true →
        (get_kernel_spec cfg native registry outcome kernel_name).1
          = Except.ok none)
    ∧ (dget R kernel_name = none → cfg.conda_store_only = false →
        ∀ s, dget native kernel_name = some s →
          (get_kernel_spec cfg native registry outcome kernel_name).1
            = Except.ok (some s))
    ∧ (dget R kernel_name = none → cfg.conda_store_only = false →
        dget native kernel_name = none →
          (get_kernel_spec cfg native registry outcome kernel_name).1
            = Except.error GetError.noSuchKernel) := by
  rcases hcyc : kernelSpecsCycle cfg registry outcome with ⟨r, evs, ws⟩
  rw [hcyc] at h
  have h2 : r = Except.ok R := h
  subst h2
  refine ⟨?_, ?_, ?_, ?_⟩
  · intro s hs
    simp only [get_kernel_spec, hcyc, hs]
  · intro hnone honly
    simp only [get_kernel_spec, hcyc, hnone, honly, if_true]
  · intro hnone honly s hs
    simp only [get_kernel_spec, hcyc, hnone, honly, hs, Bool.false_eq_true,
      if_false]
  · intro hnone honly hn
    simp only [get_kernel_spec, hcyc, hnone, honly, hn, Bool.false_eq_true,
      if_false]

/-- Witness for the amended C5: with `conda_store_only` on and an empty
registry, a missing identity yields the non-error absent result. -/
theorem C5_get_one_lookup_witness :
    ((kernelSpecsCycle cfgOnly (Except.ok ([] : List EnvRecord))
        (fun _ => InstallResult.osError)).1
      = Except.ok ([] : Dict KernelSpec))
    ∧ (get_kernel_spec cfgOnly [] (Except.ok ([] : List EnvRecord))
        (fun _ => InstallResult.osError) "x").1
      = Except.ok none :=
  ⟨rfl,
    (C5_get_one_lookup cfgOnly [] (Except.ok ([] : List EnvRecord))
      (fun _ => InstallResult.osError) "x" [] rfl).2.1 rfl rfl⟩

/-- C1: evaluation at the failing input.  Two eligible environments;
installing the first (envA) raises OSError, which is logged (envA
appears in the warning list) and the loop continues to envB; but when
envB's install succeeds, the cycle aborts with the AttributeError from
`os.join` instead of returning its result, contradicting the claim that
a filesystem failure cycle still returns its result. -/
theorem C1_install_failure_then_success_aborts_cycle :
    kernelSpecsCycle cfg0 (Except.ok [envA, envB])
        (fun e => if e.namespace_name = "teamA" then InstallResult.osError
          else InstallResult.ok "/dest")
      = (Except.error CycleError.attributeError,
         [FsEvent.installDir (sourceDirOf "ml") "teamB/ml:42" "/dest"],
         [envA]) := rfl

/-- C2: evaluation at the failing input.  A single eligible environment
whose installation step succeeds: the cycle performs the directory
installation event only — no `FsEvent.writeFile` occurs, so no
serialized definition is written to any `kernel.json` — and aborts with
the AttributeError from `os.join`. -/
theorem C2_successful_install_writes_no_kernel_json :
    kernelSpecsCycle cfg0 (Except.ok [envA])
        (fun _ => InstallResult.ok "/kernels/dest")
      = (Except.error CycleError.attributeError,
         [FsEvent.installDir (sourceDirOf "analysis") "teamA/analysis:42"
            "/kernels/dest"],
         []) := rfl

/-- C6: evaluation at the failing input.  With `conda_store_only` on, the
find cycle sees envA but the per-identity lookup cycle sees an empty
registry, so `get_kernel_spec` returns the absent `None`; `get_all_specs`
then calls `to_dict()` on `None` and aborts with an AttributeError
instead of logging and skipping the identity. -/
theorem C6_aggregation_aborts_on_absent_identity :
    get_all_specs cfgOnly [] (Except.ok [envA])
        (Except.ok ([] : List EnvRecord)) (fun _ => InstallResult.osError)
      = (Except.error AggError.noneHasNoToDict, []) := rfl
